import Mathlib

/-!
Verification development for the Cached Analysis Client of this repository
(`yandex_analyzer.py`). The Python module is shallowly embedded: text is
`List Char` (Python slicing and `in` are code-point based), Python dicts are
association lists, `datetime` values are integer ticks (seconds), and the
network is an explicit list of outcomes consumed by successive HTTP calls.
External library functions (`json.loads`, `hashlib.md5`) are parameters of
the embedded functions.
-/

/-- Text is a list of characters, matching Python's code-point view of `str`. -/
abbrev Str := List Char

/-- Values stored in result dictionaries: strings, exact rationals for the
float constants appearing in the source (0.5, -0.5, 0.0, 0.6), booleans,
lists of strings (every list value built by the source is a list of
strings), and timestamps (for `datetime.now().isoformat()`). -/
inductive Val where
  | vs (s : Str)
  | vq (q : ℚ)
  | vb (b : Bool)
  | vlist (l : List Str)
  | vtime (t : Int)
deriving DecidableEq

/-- A Python dict with string keys, as an association list (insertion order). -/
abbrev Dict := List (String × Val)

/-- Dict lookup: first entry with the given key (`d[k]` / `k in d`). -/
def dget (k : String) : Dict → Option Val
  | [] => none
  | (k', v) :: rest => if k' = k then some v else dget k rest

/-- Dict assignment `d[k] = v`: replaces the first entry with key `k` in
place, or appends at the end (Python dicts keep insertion order). -/
def dset (k : String) (v : Val) : Dict → Dict
  | [] => [(k, v)]
  | (k', v') :: rest => if k' = k then (k, v) :: rest else (k', v') :: dset k v rest

/-- One day in ticks, the cache freshness window (`timedelta(days=1)`). -/
def oneDay : Int := 86400

/-- Seven days in ticks, the cache retention window (`timedelta(days=7)`). -/
def week : Int := 7 * oneDay

/-- Lowercasing as used on the analyzed text (`news_text.lower()`): ASCII
letters and the Russian alphabet (А..Я and Ё), which covers every character
class the fixed keyword lists of the source can match. -/
def ruLower (c : Char) : Char :=
  if 'A' ≤ c ∧ c ≤ 'Z' then Char.ofNat (c.toNat + 32)
  else if 'А' ≤ c ∧ c ≤ 'Я' then Char.ofNat (c.toNat + 32)
  else if c = 'Ё' then 'ё'
  else c

/-- `text.lower()` on the embedded text. -/
def lowerStr (s : Str) : Str := s.map ruLower

/-- Python's substring test `w in t`. -/
def isSub (w : Str) : Str → Bool
  | [] => w.isEmpty
  | c :: rest => w.isPrefixOf (c :: rest) || isSub w rest

/-- The fixed positive-signal word list of `_create_enhanced_fallback`. -/
def positiveWords : List Str :=
  ["рост".data, "выше".data, "прибыль".data, "успех".data, "рекорд".data,
   "повышение".data]

/-- The fixed negative-signal word list of `_create_enhanced_fallback`. -/
def negativeWords : List Str :=
  ["падение".data, "ниже".data, "убыток".data, "кризис".data, "обвал".data,
   "снижение".data]

/-- The fixed risk word list of `_create_enhanced_fallback`. -/
def riskWords : List Str :=
  ["война".data, "санкции".data, "кризис".data, "дефолт".data,
   "банкротство".data]

/-- `sum(1 for word in words if word in text_lower)`: how many words of the
list occur in the lowered text. -/
def countWords (ws : List Str) (textLower : Str) : Nat :=
  ws.countP (fun w => isSub w textLower)

/-- positive_count of `_create_enhanced_fallback`. -/
def positiveCount (text : Str) : Nat := countWords positiveWords (lowerStr text)

/-- negative_count of `_create_enhanced_fallback`. -/
def negativeCount (text : Str) : Nat := countWords negativeWords (lowerStr text)

/-- risk_count of `_create_enhanced_fallback`. -/
def riskCount (text : Str) : Nat := countWords riskWords (lowerStr text)

/-- `YandexGPTAnalyzer._create_basic_fallback`. -/
def createBasicFallback (text : Str) (tickers : List Str) : Dict :=
  [("summary", .vs ("Базовая оценка: ".data ++ text.take 100 ++ "...".data)),
   ("sentiment", .vs "нейтральный".data),
   ("risk_level", .vs "средний".data),
   ("affected_assets", .vlist (if tickers.isEmpty then ["RUB".data]
                               else tickers)),
   ("market_impact", .vs "Требуется дополнительный анализ".data),
   ("short_term_action", .vs "Следить за развитием ситуации".data),
   ("is_fallback", .vb true)]

/-- `YandexGPTAnalyzer._create_enhanced_fallback`; `now` is the tick at which
`datetime.now()` is read for `analyzed_at`. -/
def createEnhancedFallback (now : Int) (text : Str) (tickers : List Str) : Dict :=
  let pc := positiveCount text
  let nc := negativeCount text
  let sentiment : Str :=
    if nc < pc then "позитивный".data
    else if pc < nc then "негативный".data
    else "нейтральный".data
  let sentimentScore : ℚ :=
    if nc < pc then 1/2 else if pc < nc then -(1/2) else 0
  let rc := riskCount text
  let riskLevel : Str :=
    if 2 ≤ rc then "высокий".data
    else if rc = 1 then "средний".data
    else "низкий".data
  let action : Str :=
    if sentiment = "позитивный".data then
      "Рассмотреть возможность увеличения позиций".data
    else if sentiment = "негативный".data then
      "Рекомендуется осторожность, возможна коррекция".data
    else "Сохранять текущие позиции, следить за новостями".data
  [("summary", .vs ("Анализ на основе ключевых слов: ".data ++ text.take 120
                    ++ "...".data)),
   ("detailed_analysis", .vs ("Найдено ".data ++ (toString pc).data
                    ++ " позитивных и ".data ++ (toString nc).data
                    ++ " негативных сигналов".data)),
   ("sentiment", .vs sentiment),
   ("sentiment_score", .vq sentimentScore),
   ("risk_level", .vs riskLevel),
   ("risk_explanation", .vs ("Обнаружено ".data ++ (toString rc).data
                    ++ " слов высокого риска".data)),
   ("affected_assets", .vlist (if tickers.isEmpty then ["RUB".data]
                               else tickers)),
   ("market_impact", .vs "Локальное влияние на упомянутые активы".data),
   ("short_term_forecast", .vs ("Ожидается ".data ++ sentiment
                    ++ " динамика".data)),
   ("recommended_actions", .vs action),
   ("key_risks", .vlist (if riskLevel = "низкий".data then []
                         else ["Ограниченность анализа".data])),
   ("opportunities", .vlist ["Требуется более глубокий анализ".data]),
   ("confidence", .vq (3/5)),
   ("analyzed_at", .vtime now),
   ("is_fallback", .vb true)]

/-- Index of the first occurrence of `w` in `t` (`t.find(w)` when `w` is a
literal), `none` when `w` does not occur. -/
def findSub (w : Str) : Str → Option Nat
  | [] => if w.isEmpty then some 0 else none
  | c :: rest =>
    if w.isPrefixOf (c :: rest) then some 0
    else (findSub w rest).map (· + 1)

/-- Index of the last occurrence of the character `c` in `t` (`t.rfind(c)`). -/
def findLast (c : Char) (t : Str) : Option Nat :=
  (findSub [c] t.reverse).map (fun j => t.length - 1 - j)

/-- Capture of a fenced-block regex `opn(.*?)close` under `re.search` with
`DOTALL`: the text between the leftmost occurrence of `opn` and the earliest
following occurrence of `close`. If the leftmost `opn` has no `close` after
it, no later `opn` does either, so the whole search fails. -/
def fenced (opn close t : Str) : Option Str :=
  match findSub opn t with
  | none => none
  | some i =>
    let after := t.drop (i + opn.length)
    (findSub close after).map (fun j => after.take j)

/-- Span captured by the third regex pattern of
`_extract_json_from_response` under `DOTALL` (leftmost open brace, greedy to
the last close brace). The manual `text.find` / `text.rfind` step of the
source captures exactly the same span, so a single definition serves both. -/
def braceSpan (t : Str) : Option Str :=
  match findSub ['\x7b'] t, findLast '\x7d' t with
  | some i, some j => if i < j then some ((t.drop i).take (j - i + 1)) else none
  | _, _ => none

/-- `YandexGPTAnalyzer._extract_json_from_response`. `loads` stands for the
external `json.loads` restricted to JSON objects; `loads s = none` covers
both a parse error and a non-object result (either way the caller ends in
the unusable-response branch). A parse error raises
`json.JSONDecodeError`, which the surrounding `try` of the source converts
into returning `None` — hence each matched candidate's result is final and
later candidates are not consulted. The manual find/rfind step never fires:
it captures the same span as the third pattern. -/
def extractJson (loads : Str → Option Dict) (t : Str) : Option Dict :=
  match fenced "```json\n".data "\n```".data t with
  | some s => loads s
  | none =>
    match fenced "```\n".data "\n```".data t with
    | some s => loads s
    | none =>
      match braceSpan t with
      | some s => loads s
      | none => none

/-- The first candidate substring the extraction's pattern list matches:
fenced-as-json block, then generic fenced block, then the balanced-brace
span (which also subsumes the manual scan). -/
def firstCandidate (t : Str) : Option Str :=
  match fenced "```json\n".data "\n```".data t with
  | some s => some s
  | none =>
    match fenced "```\n".data "\n```".data t with
    | some s => some s
    | none => braceSpan t

/-- Outcome of one `requests.post` call, as the environment's script
provides it: a response with status code and — for the model — the text
field `response.json()["result"]["alternatives"][0]["message"]["text"]`
(`none` when the body lacks that envelope, making the source raise and land
in the generic exception handler), or one of the exception kinds the source
distinguishes. -/
inductive HttpResult where
  | resp (status : Nat) (aiText : Option Str)
  | timeout
  | connError
  | exc
deriving DecidableEq

/-- Observable blocking events of one `analyze_news` activation, named after
the `time.sleep` call sites of the source. -/
inductive Event where
  | ratePause
  | call
  | wait429
  | retryWait (d : Nat)
deriving DecidableEq

/-- One cache slot: `{'timestamp': ..., 'data': ...}`. -/
structure CacheEntry where
  ts : Int
  data : Dict
deriving DecidableEq

/-- Cache lookup by key (`cache_key in self.cache` / `self.cache[cache_key]`). -/
def cgetEntry (k : Str) : List (Str × CacheEntry) → Option CacheEntry
  | [] => none
  | (k', e) :: rest => if k' = k then some e else cgetEntry k rest

/-- `self.cache[key] = entry`: replace in place or append. -/
def csetEntry (k : Str) (e : CacheEntry) : List (Str × CacheEntry) → List (Str × CacheEntry)
  | [] => [(k, e)]
  | (k', e') :: rest => if k' = k then (k, e) :: rest else (k', e') :: csetEntry k e rest

/-- Mutable state of a `YandexGPTAnalyzer` instance (the fields the claims
touch). A missing credential is the empty string — Python's falsiness test
`if not self.api_key`. -/
structure AState where
  apiKey : Str
  folderId : Str
  cache : List (Str × CacheEntry)
  requestCount : Nat
  cacheEnabled : Bool
deriving DecidableEq

/-- Cache key of `_get_cache_key` with `analysis_type = "news"`; `md5` stands
for the external `hashlib.md5(...).hexdigest()`. -/
def cacheKey (md5 : Str → Str) (text : Str) : Str :=
  "news_".data ++ md5 text

/-- `YandexGPTAnalyzer._save_cache`: a no-op when caching is disabled;
otherwise drops every entry whose timestamp is before `now - 7 days` and
writes the rest to disk (the write itself has no observable effect in the
model). -/
def saveCache (now : Int) (st : AState) : AState :=
  if st.cacheEnabled then
    { st with cache := st.cache.filter (fun kv => decide (now - week ≤ kv.2.ts)) }
  else st

/-- The cache read of `analyze_news` (its lines 140–147): the stored data is
returned only when `use_cache` and `cache_enabled` hold, the key is present
and the entry is younger than one day; otherwise the caller proceeds to the
remote path. The read never mutates the cache. -/
def cacheGet (now : Int) (st : AState) (useCache : Bool) (key : Str) : Option Dict :=
  if useCache && st.cacheEnabled then
    match cgetEntry key st.cache with
    | some e => if now - e.ts < oneDay then some e.data else none
    | none => none
  else none

/-- The cache write of `analyze_news` (its lines 246–252): store the entry
under the key with the current timestamp, then `_save_cache`. -/
def cachePut (now : Int) (key : Str) (d : Dict) (st : AState) : AState :=
  saveCache now { st with cache := csetEntry key ⟨now, d⟩ st.cache }

/-- The metadata enrichment of a successful analysis (lines 242–244):
`analyzed_at`, then `text_hash` (first 8 hex digits of the md5), then
`is_fallback = False`. -/
def enrich (md5 : Str → Str) (now : Int) (text : Str) (a : Dict) : Dict :=
  dset "is_fallback" (.vb false)
    (dset "text_hash" (.vs ((md5 text).take 8))
      (dset "analyzed_at" (.vtime now) a))

/-- `self.request_count += 1` at the head of the remote path. -/
def stBump (st : AState) : AState :=
  { st with requestCount := st.requestCount + 1 }

/-- Blocking events of one remote attempt before the response arrives: the
soft rate-limit pause (`if self.request_count % 5 == 0: time.sleep(1)`,
checked after the increment) and the network call itself. -/
def preEvents (st : AState) : List Event :=
  (if (st.requestCount + 1) % 5 = 0 then [.ratePause] else []) ++ [.call]

/-- `YandexGPTAnalyzer.analyze_news`, driven by a finite script of network
outcomes (one consumed per HTTP call; an exhausted script behaves as a
connection error, since the call must have some outcome). Returns the
result dict, the final state, and the trace of blocking events. The
credential check, the cache read and the remote dispatch run in the
source's order in every arm; the arms are split on the script head so that
each network outcome has its own equation. `_analyze_with_retry` is
inlined at the 429 arm: its loop's first attempt calls
`analyze_news(use_cache=False)`, which handles every failure internally
and therefore never raises, so the loop returns on the first attempt after
sleeping `2 ** 0 = 1`; the second attempt (wait 2) and the trailing
fallback of the helper are unreachable. The recursion consumes one script
element per nesting level, so it is structural in the script. -/
def analyzeNews (loads : Str → Option Dict) (md5 : Str → Str) (now : Int)
    (text : Str) (tickers : List Str) :
    List HttpResult → AState → Bool → Dict × AState × List Event
  | [], st, uc =>
    if st.apiKey = [] then (createBasicFallback text tickers, st, [])
    else
      match cacheGet now st uc (cacheKey md5 text) with
      | some d => (d, st, [])
      | none => (createEnhancedFallback now text tickers, stBump st, preEvents st)
  | .resp status aiText :: rest, st, uc =>
    if st.apiKey = [] then (createBasicFallback text tickers, st, [])
    else
      match cacheGet now st uc (cacheKey md5 text) with
      | some d => (d, st, [])
      | none =>
        if status = 200 then
          match aiText with
          | none => (createEnhancedFallback now text tickers, stBump st, preEvents st)
          | some ai =>
            match extractJson loads ai with
            | some a =>
              if !a.isEmpty && (dget "summary" a).isSome then
                (enrich md5 now text a,
                 if uc && st.cacheEnabled then
                   cachePut now (cacheKey md5 text) (enrich md5 now text a) (stBump st)
                 else stBump st,
                 preEvents st)
              else (createEnhancedFallback now text tickers, stBump st, preEvents st)
            | none => (createEnhancedFallback now text tickers, stBump st, preEvents st)
        else if status = 429 then
          ((analyzeNews loads md5 now text tickers rest (stBump st) false).1,
           (analyzeNews loads md5 now text tickers rest (stBump st) false).2.1,
           preEvents st ++ [.wait429, .retryWait 1]
             ++ (analyzeNews loads md5 now text tickers rest (stBump st) false).2.2)
        else (createEnhancedFallback now text tickers, stBump st, preEvents st)
  | .timeout :: _, st, uc =>
    if st.apiKey = [] then (createBasicFallback text tickers, st, [])
    else
      match cacheGet now st uc (cacheKey md5 text) with
      | some d => (d, st, [])
      | none => (createEnhancedFallback now text tickers, stBump st, preEvents st)
  | .connError :: _, st, uc =>
    if st.apiKey = [] then (createBasicFallback text tickers, st, [])
    else
      match cacheGet now st uc (cacheKey md5 text) with
      | some d => (d, st, [])
      | none => (createEnhancedFallback now text tickers, stBump st, preEvents st)
  | .exc :: _, st, uc =>
    if st.apiKey = [] then (createBasicFallback text tickers, st, [])
    else
      match cacheGet now st uc (cacheKey md5 text) with
      | some d => (d, st, [])
      | none => (createEnhancedFallback now text tickers, stBump st, preEvents st)

/-- `YandexGPTAnalyzer.clear_cache`: with a (truthy) day count, drop entries
older than the cutoff; with `None` (or `0`, falsy), drop everything; then
`_save_cache`. -/
def clearCache (now : Int) (olderThanDays : Option Nat) (st : AState) : AState :=
  let cache' :=
    match olderThanDays with
    | some d =>
      if d ≠ 0 then st.cache.filter (fun kv => decide (now - d * oneDay ≤ kv.2.ts))
      else []
    | none => []
  saveCache now { st with cache := cache' }

theorem dget_dset_self (k : String) (v : Val) (d : Dict) :
    dget k (dset k v d) = some v := by
  induction d with
  | nil => simp [dset, dget]
  | cons kv rest ih =>
    obtain ⟨k', v'⟩ := kv
    by_cases h : k' = k
    · simp [dset, dget, h]
    · simp [dset, dget, h, ih]

theorem dget_dset_other (k k₀ : String) (v : Val) (d : Dict) (hk : k₀ ≠ k) :
    dget k (dset k₀ v d) = dget k d := by
  induction d with
  | nil => simp [dset, dget, hk]
  | cons kv rest ih =>
    obtain ⟨k', v'⟩ := kv
    by_cases h : k' = k₀
    · subst h
      simp [dset, dget, hk]
    · simp [dset, dget, h, ih]

theorem cget_mem {k : Str} {e : CacheEntry} {c : List (Str × CacheEntry)}
    (h : cgetEntry k c = some e) : (k, e) ∈ c := by
  induction c with
  | nil => simp [cgetEntry] at h
  | cons kv rest ih =>
    obtain ⟨k', e'⟩ := kv
    by_cases hk : k' = k
    · subst hk
      simp [cgetEntry] at h
      simp [h]
    · simp [cgetEntry, hk] at h
      exact List.mem_cons_of_mem _ (ih h)

theorem cget_filter_cset (p : Str × CacheEntry → Bool) (k : Str) (e : CacheEntry)
    (c : List (Str × CacheEntry)) (hp : p (k, e) = true) :
    cgetEntry k ((csetEntry k e c).filter p) = some e := by
  induction c with
  | nil => simp [csetEntry, hp, cgetEntry]
  | cons kv rest ih =>
    obtain ⟨k', e'⟩ := kv
    by_cases hk : k' = k
    · subst hk
      simp [csetEntry, hp, cgetEntry]
    · simp only [csetEntry, if_neg hk]
      by_cases hq : p (k', e') = true
      · simp [List.filter_cons, hq, cgetEntry, hk, ih]
      · simp only [Bool.not_eq_true] at hq
        simp [List.filter_cons, hq, ih]

theorem mem_csetEntry {k₀ : Str} {e₀ : CacheEntry} {k : Str} {e : CacheEntry}
    {c : List (Str × CacheEntry)} (h : (k, e) ∈ csetEntry k₀ e₀ c) :
    (k, e) = (k₀, e₀) ∨ (k, e) ∈ c := by
  induction c with
  | nil => simpa [csetEntry] using h
  | cons kv rest ih =>
    obtain ⟨k', e'⟩ := kv
    by_cases hk : k' = k₀
    · subst hk
      simp only [csetEntry, if_pos rfl] at h
      rcases List.mem_cons.mp h with h | h
      · exact Or.inl h
      · exact Or.inr (List.mem_cons_of_mem _ h)
    · simp only [csetEntry, if_neg hk] at h
      rcases List.mem_cons.mp h with h | h
      · exact Or.inr (h ▸ List.mem_cons_self _ _)
      · rcases ih h with h | h
        · exact Or.inl h
        · exact Or.inr (List.mem_cons_of_mem _ h)

theorem two_le_countP {α : Type} (p : α → Bool) (l : List α) (a b : α)
    (ha : a ∈ l) (hb : b ∈ l) (hab : a ≠ b) (hpa : p a = true)
    (hpb : p b = true) : 2 ≤ l.countP p := by
  have haf : a ∈ l.filter p := List.mem_filter.mpr ⟨ha, hpa⟩
  have hbf : b ∈ l.filter p := List.mem_filter.mpr ⟨hb, hpb⟩
  rw [List.countP_eq_length_filter]
  rcases hf : l.filter p with _ | ⟨x, _ | ⟨y, t⟩⟩
  · rw [hf] at haf
    simp at haf
  · rw [hf] at haf hbf
    simp at haf hbf
    exact absurd (haf.trans hbf.symm) hab
  · simp


theorem cacheGet_eq_some {now : Int} {st : AState} {uc : Bool} {key : Str}
    {d : Dict} (h : cacheGet now st uc key = some d) :
    ∃ e, cgetEntry key st.cache = some e ∧ now - e.ts < oneDay ∧ d = e.data := by
  unfold cacheGet at h
  split at h
  · cases hc : cgetEntry key st.cache with
    | none => rw [hc] at h; simp at h
    | some e =>
      rw [hc] at h
      dsimp only at h
      split at h
      next ht => exact ⟨e, rfl, ht, (Option.some.inj h).symm⟩
      next ht => simp at h
  · simp at h

theorem cacheGet_of_cget_none {key : Str} {st : AState} (now : Int) (uc : Bool)
    (h : cgetEntry key st.cache = none) : cacheGet now st uc key = none := by
  simp [cacheGet, h]

theorem cacheGet_false (now : Int) (st : AState) (key : Str) :
    cacheGet now st false key = none := by
  simp [cacheGet]

theorem analyzeNews_result_cases (loads : Str → Option Dict) (md5 : Str → Str)
    (now : Int) (text : Str) (tickers : List Str) :
    ∀ (script : List HttpResult) (st : AState) (uc : Bool),
      ((analyzeNews loads md5 now text tickers script st uc).1
        = createBasicFallback text tickers ∧ st.apiKey = [])
      ∨ (∃ e, cgetEntry (cacheKey md5 text) st.cache = some e
              ∧ (analyzeNews loads md5 now text tickers script st uc).1 = e.data)
      ∨ (∃ a, (analyzeNews loads md5 now text tickers script st uc).1
              = enrich md5 now text a)
      ∨ (analyzeNews loads md5 now text tickers script st uc).1
        = createEnhancedFallback now text tickers := by
  intro script
  induction script with
  | nil =>
    intro st uc
    simp only [analyzeNews]
    by_cases hA : st.apiKey = []
    · rw [if_pos hA]
      exact Or.inl ⟨rfl, hA⟩
    · rw [if_neg hA]
      cases hC : cacheGet now st uc (cacheKey md5 text) with
      | some d =>
        obtain ⟨e, he, _, hd⟩ := cacheGet_eq_some hC
        exact Or.inr (Or.inl ⟨e, he, hd⟩)
      | none =>
        exact Or.inr (Or.inr (Or.inr rfl))
  | cons r rest ih =>
    intro st uc
    cases r with
    | resp status aiText =>
      simp only [analyzeNews]
      by_cases hA : st.apiKey = []
      · rw [if_pos hA]
        exact Or.inl ⟨rfl, hA⟩
      · rw [if_neg hA]
        cases hC : cacheGet now st uc (cacheKey md5 text) with
        | some d =>
          obtain ⟨e, he, _, hd⟩ := cacheGet_eq_some hC
          exact Or.inr (Or.inl ⟨e, he, hd⟩)
        | none =>
          dsimp only
          by_cases h200 : status = 200
          · rw [if_pos h200]
            cases aiText with
            | none => exact Or.inr (Or.inr (Or.inr rfl))
            | some ai =>
              dsimp only
              cases hE : extractJson loads ai with
              | some a =>
                dsimp only
                by_cases hS : (!a.isEmpty && (dget "summary" a).isSome) = true
                · rw [if_pos hS]
                  exact Or.inr (Or.inr (Or.inl ⟨a, rfl⟩))
                · rw [if_neg hS]
                  exact Or.inr (Or.inr (Or.inr rfl))
              | none =>
                exact Or.inr (Or.inr (Or.inr rfl))
          · rw [if_neg h200]
            by_cases h429 : status = 429
            · rw [if_pos h429]
              rcases ih (stBump st) false with h | ⟨e, he, hd⟩ | ⟨a, ha⟩ | h
              · exact Or.inl h
              · exact Or.inr (Or.inl ⟨e, he, hd⟩)
              · exact Or.inr (Or.inr (Or.inl ⟨a, ha⟩))
              · exact Or.inr (Or.inr (Or.inr h))
            · rw [if_neg h429]
              exact Or.inr (Or.inr (Or.inr rfl))
    | timeout =>
      simp only [analyzeNews]
      by_cases hA : st.apiKey = []
      · rw [if_pos hA]
        exact Or.inl ⟨rfl, hA⟩
      · rw [if_neg hA]
        cases hC : cacheGet now st uc (cacheKey md5 text) with
        | some d =>
          obtain ⟨e, he, _, hd⟩ := cacheGet_eq_some hC
          exact Or.inr (Or.inl ⟨e, he, hd⟩)
        | none =>
          exact Or.inr (Or.inr (Or.inr rfl))
    | connError =>
      simp only [analyzeNews]
      by_cases hA : st.apiKey = []
      · rw [if_pos hA]
        exact Or.inl ⟨rfl, hA⟩
      · rw [if_neg hA]
        cases hC : cacheGet now st uc (cacheKey md5 text) with
        | some d =>
          obtain ⟨e, he, _, hd⟩ := cacheGet_eq_some hC
          exact Or.inr (Or.inl ⟨e, he, hd⟩)
        | none =>
          exact Or.inr (Or.inr (Or.inr rfl))
    | exc =>
      simp only [analyzeNews]
      by_cases hA : st.apiKey = []
      · rw [if_pos hA]
        exact Or.inl ⟨rfl, hA⟩
      · rw [if_neg hA]
        cases hC : cacheGet now st uc (cacheKey md5 text) with
        | some d =>
          obtain ⟨e, he, _, hd⟩ := cacheGet_eq_some hC
          exact Or.inr (Or.inl ⟨e, he, hd⟩)
        | none =>
          exact Or.inr (Or.inr (Or.inr rfl))

theorem cacheGet_stale_none {now : Int} {st : AState} {key : Str}
    {e : CacheEntry} (uc : Bool) (hentry : cgetEntry key st.cache = some e)
    (hstale : ¬ now - e.ts < oneDay) : cacheGet now st uc key = none := by
  unfold cacheGet
  split
  · rw [hentry]
    dsimp only
    rw [if_neg hstale]
  · rfl

theorem analyzeNews_cache_of_not_uc (loads : Str → Option Dict)
    (md5 : Str → Str) (now : Int) (text : Str) (tickers : List Str) :
    ∀ (script : List HttpResult) (st : AState),
      ((analyzeNews loads md5 now text tickers script st false).2.1).cache
        = st.cache := by
  intro script
  induction script with
  | nil =>
    intro st
    simp only [analyzeNews]
    by_cases hA : st.apiKey = []
    · rw [if_pos hA]
    · rw [if_neg hA, cacheGet_false]
      rfl
  | cons r rest ih =>
    intro st
    cases r with
    | resp status aiText =>
      simp only [analyzeNews]
      by_cases hA : st.apiKey = []
      · rw [if_pos hA]
      · rw [if_neg hA, cacheGet_false]
        dsimp only
        by_cases h200 : status = 200
        · rw [if_pos h200]
          cases aiText with
          | none => rfl
          | some ai =>
            dsimp only
            cases hE : extractJson loads ai with
            | some a =>
              dsimp only
              by_cases hS : (!a.isEmpty && (dget "summary" a).isSome) = true
              · rw [if_pos hS]
                dsimp only
                rw [if_neg]
                · rfl
                · simp
              · rw [if_neg hS]
                rfl
            | none => rfl
        · rw [if_neg h200]
          by_cases h429 : status = 429
          · rw [if_pos h429]
            exact ih (stBump st)
          · rw [if_neg h429]
            rfl
    | timeout =>
      simp only [analyzeNews]
      by_cases hA : st.apiKey = []
      · rw [if_pos hA]
      · rw [if_neg hA, cacheGet_false]
        rfl
    | connError =>
      simp only [analyzeNews]
      by_cases hA : st.apiKey = []
      · rw [if_pos hA]
      · rw [if_neg hA, cacheGet_false]
        rfl
    | exc =>
      simp only [analyzeNews]
      by_cases hA : st.apiKey = []
      · rw [if_pos hA]
      · rw [if_neg hA, cacheGet_false]
        rfl

/-- Invariant: every entry of the cache holds data whose `is_fallback` flag
is `False` (a result of a successful remote call). -/
def fbFree (c : List (Str × CacheEntry)) : Prop :=
  ∀ k e, (k, e) ∈ c → dget "is_fallback" e.data = some (.vb false)

theorem fbFree_filter {c : List (Str × CacheEntry)}
    (p : Str × CacheEntry → Bool) (h : fbFree c) : fbFree (c.filter p) :=
  fun k e hm => h k e (List.mem_of_mem_filter hm)

theorem fbFree_nil : fbFree [] := fun _ _ hm => absurd hm (List.not_mem_nil _)

theorem fbFree_saveCache (now : Int) (st : AState) (h : fbFree st.cache) :
    fbFree (saveCache now st).cache := by
  unfold saveCache
  split
  · exact fbFree_filter _ h
  · exact h

theorem fbFree_clearCache (now : Int) (dOpt : Option Nat) (st : AState)
    (h : fbFree st.cache) : fbFree (clearCache now dOpt st).cache := by
  unfold clearCache
  cases dOpt with
  | none => exact fbFree_saveCache now _ fbFree_nil
  | some dd =>
    dsimp only
    by_cases hd : dd ≠ 0
    · rw [if_pos hd]
      exact fbFree_saveCache now _ (fbFree_filter _ h)
    · rw [if_neg hd]
      exact fbFree_saveCache now _ fbFree_nil

theorem dget_enrich_isfb (md5 : Str → Str) (now : Int) (text : Str) (a : Dict) :
    dget "is_fallback" (enrich md5 now text a) = some (.vb false) := by
  unfold enrich
  exact dget_dset_self _ _ _

theorem fbFree_cachePut {st : AState} (now : Int) (key : Str) (d : Dict)
    (h : fbFree st.cache) (hd : dget "is_fallback" d = some (.vb false)) :
    fbFree (cachePut now key d st).cache := by
  unfold cachePut
  apply fbFree_saveCache
  intro k e hm
  rcases mem_csetEntry hm with h1 | h1
  · rw [Prod.mk.injEq] at h1
    rw [h1.2]
    exact hd
  · exact h k e h1

theorem fbFree_analyzeNews (loads : Str → Option Dict) (md5 : Str → Str)
    (now : Int) (text : Str) (tickers : List Str) :
    ∀ (script : List HttpResult) (st : AState) (uc : Bool),
      fbFree st.cache →
      fbFree ((analyzeNews loads md5 now text tickers script st uc).2.1).cache := by
  intro script
  induction script with
  | nil =>
    intro st uc h
    simp only [analyzeNews]
    by_cases hA : st.apiKey = []
    · rw [if_pos hA]
      exact h
    · rw [if_neg hA]
      cases hC : cacheGet now st uc (cacheKey md5 text) with
      | some d => exact h
      | none => exact h
  | cons r rest ih =>
    intro st uc h
    cases r with
    | resp status aiText =>
      simp only [analyzeNews]
      by_cases hA : st.apiKey = []
      · rw [if_pos hA]
        exact h
      · rw [if_neg hA]
        cases hC : cacheGet now st uc (cacheKey md5 text) with
        | some d => exact h
        | none =>
          dsimp only
          by_cases h200 : status = 200
          · rw [if_pos h200]
            cases aiText with
            | none => exact h
            | some ai =>
              dsimp only
              cases hE : extractJson loads ai with
              | some a =>
                dsimp only
                by_cases hS : (!a.isEmpty && (dget "summary" a).isSome) = true
                · rw [if_pos hS]
                  dsimp only
                  by_cases hUC : (uc && st.cacheEnabled) = true
                  · rw [if_pos hUC]
                    exact fbFree_cachePut now _ _ h (dget_enrich_isfb md5 now text a)
                  · rw [if_neg hUC]
                    exact h
                · rw [if_neg hS]
                  exact h
              | none => exact h
          · rw [if_neg h200]
            by_cases h429 : status = 429
            · rw [if_pos h429]
              exact ih (stBump st) false h
            · rw [if_neg h429]
              exact h
    | timeout =>
      simp only [analyzeNews]
      by_cases hA : st.apiKey = []
      · rw [if_pos hA]
        exact h
      · rw [if_neg hA]
        cases hC : cacheGet now st uc (cacheKey md5 text) with
        | some d => exact h
        | none => exact h
    | connError =>
      simp only [analyzeNews]
      by_cases hA : st.apiKey = []
      · rw [if_pos hA]
        exact h
      · rw [if_neg hA]
        cases hC : cacheGet now st uc (cacheKey md5 text) with
        | some d => exact h
        | none => exact h
    | exc =>
      simp only [analyzeNews]
      by_cases hA : st.apiKey = []
      · rw [if_pos hA]
        exact h
      · rw [if_neg hA]
        cases hC : cacheGet now st uc (cacheKey md5 text) with
        | some d => exact h
        | none => exact h

/-- The script heads `analyze_news` classifies as plain remote failures:
timeout, connection error, unexpected exception, and any status other than
200 and 429. -/
def isFailureHead (r : HttpResult) : Prop :=
  r = .timeout ∨ r = .connError ∨ r = .exc ∨
  ∃ s a, r = .resp s a ∧ s ≠ 200 ∧ s ≠ 429

theorem analyzeNews_failure_head (loads : Str → Option Dict) (md5 : Str → Str)
    (now : Int) (text : Str) (tickers : List Str) (r : HttpResult)
    (rest : List HttpResult) (st : AState) (uc : Bool)
    (hA : ¬ st.apiKey = [])
    (hKey : cacheGet now st uc (cacheKey md5 text) = none)
    (hr : isFailureHead r) :
    analyzeNews loads md5 now text tickers (r :: rest) st uc
      = (createEnhancedFallback now text tickers, stBump st, preEvents st) := by
  rcases hr with rfl | rfl | rfl | ⟨s, a, rfl, hs200, hs429⟩
  · simp only [analyzeNews]
    rw [if_neg hA, hKey]
  · simp only [analyzeNews]
    rw [if_neg hA, hKey]
  · simp only [analyzeNews]
    rw [if_neg hA, hKey]
  · simp only [analyzeNews]
    rw [if_neg hA, hKey]
    dsimp only
    rw [if_neg hs200, if_neg hs429]

theorem call_mem_preEvents (st : AState) : Event.call ∈ preEvents st := by
  unfold preEvents
  exact List.mem_append_right _ (List.mem_singleton.mpr rfl)

theorem call_mem_analyzeNews (loads : Str → Option Dict) (md5 : Str → Str)
    (now : Int) (text : Str) (tickers : List Str)
    (script : List HttpResult) (st : AState) (uc : Bool)
    (hA : ¬ st.apiKey = [])
    (hKey : cacheGet now st uc (cacheKey md5 text) = none) :
    Event.call ∈ (analyzeNews loads md5 now text tickers script st uc).2.2 := by
  have hcall : Event.call ∈ preEvents st := call_mem_preEvents st
  cases script with
  | nil =>
    simp only [analyzeNews]
    rw [if_neg hA, hKey]
    exact hcall
  | cons r rest =>
    cases r with
    | resp status aiText =>
      simp only [analyzeNews]
      rw [if_neg hA, hKey]
      dsimp only
      by_cases h200 : status = 200
      · rw [if_pos h200]
        cases aiText with
        | none => exact hcall
        | some ai =>
          dsimp only
          cases hE : extractJson loads ai with
          | some a =>
            dsimp only
            by_cases hS : (!a.isEmpty && (dget "summary" a).isSome) = true
            · rw [if_pos hS]
              exact hcall
            · rw [if_neg hS]
              exact hcall
          | none => exact hcall
      · rw [if_neg h200]
        by_cases h429 : status = 429
        · rw [if_pos h429]
          exact List.mem_append_left _ (List.mem_append_left _ hcall)
        · rw [if_neg h429]
          exact hcall
    | timeout =>
      simp only [analyzeNews]
      rw [if_neg hA, hKey]
      exact hcall
    | connError =>
      simp only [analyzeNews]
      rw [if_neg hA, hKey]
      exact hcall
    | exc =>
      simp only [analyzeNews]
      rw [if_neg hA, hKey]
      exact hcall

theorem counts_preEvents (st : AState) :
    (preEvents st).countP (fun e => decide (e = Event.call)) = 1
    ∧ (preEvents st).countP (fun e => decide (e = Event.wait429)) = 0
    ∧ (preEvents st).countP (fun e => decide (e = Event.retryWait 1)) = 0 := by
  unfold preEvents
  split <;> simp [List.countP_cons, List.countP_nil]

theorem analyzeNews_429_run (loads : Str → Option Dict) (md5 : Str → Str)
    (now : Int) (text : Str) (tickers : List Str) :
    ∀ (k : Nat) (st : AState) (uc : Bool),
      ¬ st.apiKey = [] →
      cgetEntry (cacheKey md5 text) st.cache = none →
      (analyzeNews loads md5 now text tickers
          (List.replicate k (.resp 429 none) ++ [.timeout]) st uc).1
        = createEnhancedFallback now text tickers
      ∧ ((analyzeNews loads md5 now text tickers
          (List.replicate k (.resp 429 none) ++ [.timeout]) st uc).2.2).countP
          (fun e => decide (e = Event.call)) = k + 1
      ∧ ((analyzeNews loads md5 now text tickers
          (List.replicate k (.resp 429 none) ++ [.timeout]) st uc).2.2).countP
          (fun e => decide (e = Event.wait429)) = k
      ∧ ((analyzeNews loads md5 now text tickers
          (List.replicate k (.resp 429 none) ++ [.timeout]) st uc).2.2).countP
          (fun e => decide (e = Event.retryWait 1)) = k := by
  intro k
  induction k with
  | zero =>
    intro st uc hA hKey
    have hget : cacheGet now st uc (cacheKey md5 text) = none :=
      cacheGet_of_cget_none now uc hKey
    obtain ⟨h1, h2, h3⟩ := counts_preEvents st
    rw [List.replicate_zero, List.nil_append]
    rw [analyzeNews_failure_head loads md5 now text tickers _ _ st uc hA hget
      (Or.inl rfl)]
    exact ⟨rfl, h1, h2, h3⟩
  | succ k ih =>
    intro st uc hA hKey
    have hget : cacheGet now st uc (cacheKey md5 text) = none :=
      cacheGet_of_cget_none now uc hKey
    rw [List.replicate_succ, List.cons_append]
    simp only [analyzeNews]
    rw [if_neg hA, hget]
    dsimp only
    rw [if_neg (by decide : ¬ (429 : Nat) = 200)]
    simp only [if_true]
    obtain ⟨ih1, ih2, ih3, ih4⟩ := ih (stBump st) false hA hKey
    obtain ⟨h1, h2, h3⟩ := counts_preEvents st
    refine ⟨ih1, ?_, ?_, ?_⟩
    · rw [List.countP_append, List.countP_append, h1, ih2]
      simp [List.countP_cons, List.countP_nil]
      omega
    · rw [List.countP_append, List.countP_append, h2, ih3]
      simp [List.countP_cons, List.countP_nil]
      omega
    · rw [List.countP_append, List.countP_append, h3, ih4]
      simp [List.countP_cons, List.countP_nil]
      omega

theorem week_pos : (0 : Int) < week := by decide

theorem oneDay_pos : (0 : Int) < oneDay := by decide

/-- C7 counterexample state: one cache entry of age zero. -/
def stC7 : AState := ⟨"k".data, "f".data, [("n".data, ⟨0, []⟩)], 0, true⟩

/-- C7 counterexample: `clear_cache(None)` permanently removes an entry that
is not older than the retention window — the flush pruning rule alone, run
on the same state, removes nothing — so the flush is not the only point at
which entries are permanently removed. -/
theorem c7_counterexample :
    (clearCache 0 none stC7).cache = [] ∧ stC7.cache ≠ []
    ∧ (saveCache 0 stC7).cache = stC7.cache := by
  refine ⟨rfl, by decide, by decide⟩

/-- C7 (amended): when caching is enabled, `_save_cache` deletes exactly the
entries older than the 7-day retention window before writing — afterwards
no entry older than 7 days remains, and every younger entry survives; when
caching is disabled it neither prunes nor writes; and `clear_cache(None)`
additionally empties the cache, so the flush pruning is not the only
removal point. -/
theorem c7_retention_amended (now : Int) (st : AState) :
    (st.cacheEnabled = true →
      ∀ k e, (k, e) ∈ (saveCache now st).cache → now - e.ts ≤ week)
    ∧ (st.cacheEnabled = true →
      ∀ k e, (k, e) ∈ st.cache → now - e.ts ≤ week →
        (k, e) ∈ (saveCache now st).cache)
    ∧ (st.cacheEnabled = false → (saveCache now st).cache = st.cache)
    ∧ (clearCache now none st).cache = [] := by
  refine ⟨?_, ?_, ?_, ?_⟩
  · intro hen k e hm
    unfold saveCache at hm
    rw [if_pos hen] at hm
    have hp := (List.mem_filter.mp hm).2
    have h3 := of_decide_eq_true hp
    dsimp only at h3
    omega
  · intro hen k e hm hage
    unfold saveCache
    rw [if_pos hen]
    refine List.mem_filter.mpr ⟨hm, decide_eq_true ?_⟩
    show now - week ≤ e.ts
    omega
  · intro hen
    unfold saveCache
    rw [if_neg (by rw [hen]; exact Bool.false_ne_true)]
  · unfold clearCache saveCache
    dsimp only
    split
    · simp
    · rfl

/-- C9: cache round-trip — after `put(k, r)` (the write of lines 246–252,
including the `_save_cache` pruning it triggers), a `get(k)` performed
within the freshness window returns `r` unchanged. -/
theorem c9_cache_roundtrip (now now' : Int) (key : Str) (d : Dict)
    (st : AState) (h1 : st.cacheEnabled = true) (h2 : now' - now < oneDay) :
    cacheGet now' (cachePut now key d st) true key = some d := by
  have hp : (fun kv : Str × CacheEntry => decide (now - week ≤ kv.2.ts))
      (key, ⟨now, d⟩) = true :=
    decide_eq_true (show now - week ≤ now by have := week_pos; omega)
  unfold cachePut saveCache
  dsimp only
  rw [if_pos h1]
  unfold cacheGet
  dsimp only
  rw [h1]
  simp only [Bool.and_self, if_true]
  rw [cget_filter_cset _ _ _ _ hp]
  dsimp only
  rw [if_pos h2]

/-- C9 witness: a concrete round-trip through the cache. -/
theorem c9_cache_roundtrip_witness :
    cacheGet 10 (cachePut 0 ("news_t".data) [("summary", .vb true)]
      ⟨"k".data, "f".data, [], 0, true⟩) true ("news_t".data)
    = some [("summary", .vb true)] :=
  c9_cache_roundtrip 0 10 ("news_t".data) [("summary", .vb true)]
    ⟨"k".data, "f".data, [], 0, true⟩ rfl (by decide)

/-- C6: a cache read returns the stored data exactly when the entry exists
and is younger than one day; an older entry is treated as absent — the
remote path is attempted (a network call appears in the trace) — and the
read does not delete the stale entry (on a failing remote outcome the cache
is completely unchanged). -/
theorem c6_cache_freshness (loads : Str → Option Dict) (md5 : Str → Str)
    (now : Int) (text : Str) (tickers : List Str) (st : AState) (key : Str) :
    (∀ d, cacheGet now st true key = some d →
      ∃ e, cgetEntry key st.cache = some e ∧ now - e.ts < oneDay ∧ d = e.data)
    ∧ (∀ e, cgetEntry key st.cache = some e → now - e.ts < oneDay →
      st.cacheEnabled = true → cacheGet now st true key = some e.data)
    ∧ (∀ e, cgetEntry key st.cache = some e → ¬ now - e.ts < oneDay →
      cacheGet now st true key = none)
    ∧ (∀ e script uc, ¬ st.apiKey = [] →
      cgetEntry (cacheKey md5 text) st.cache = some e → ¬ now - e.ts < oneDay →
      Event.call ∈ (analyzeNews loads md5 now text tickers script st uc).2.2)
    ∧ (∀ e r rest uc, ¬ st.apiKey = [] →
      cgetEntry (cacheKey md5 text) st.cache = some e → ¬ now - e.ts < oneDay →
      isFailureHead r →
      ((analyzeNews loads md5 now text tickers (r :: rest) st uc).2.1).cache
        = st.cache) := by
  refine ⟨?_, ?_, ?_, ?_, ?_⟩
  · intro d h
    exact cacheGet_eq_some h
  · intro e he hf hen
    unfold cacheGet
    rw [hen]
    simp only [Bool.and_self, if_true]
    rw [he]
    dsimp only
    rw [if_pos hf]
  · intro e he hst
    exact cacheGet_stale_none true he hst
  · intro e script uc hA he hst
    exact call_mem_analyzeNews loads md5 now text tickers script st uc hA
      (cacheGet_stale_none uc he hst)
  · intro e r rest uc hA he hst hr
    rw [analyzeNews_failure_head loads md5 now text tickers r rest st uc hA
      (cacheGet_stale_none uc he hst) hr]
    rfl

/-- C6 witness state: a single cache entry exactly one day old. -/
def stC6 : AState := ⟨"k".data, "f".data, [("news_t".data, ⟨0, []⟩)], 0, true⟩

/-- C6 witness: the stale entry is not served, a remote call happens, and a
timeout leaves the cache unchanged. -/
theorem c6_cache_freshness_witness :
    cacheGet 86400 stC6 true ("news_t".data) = none
    ∧ Event.call ∈ (analyzeNews (fun _ => none) (fun s => s) 86400 "t".data []
        [.timeout] stC6 true).2.2
    ∧ ((analyzeNews (fun _ => none) (fun s => s) 86400 "t".data []
        [.timeout] stC6 true).2.1).cache = stC6.cache := by
  obtain ⟨_, _, h3, h4, h5⟩ :=
    c6_cache_freshness (fun _ => none) (fun s => s) 86400 "t".data [] stC6
      ("news_t".data)
  exact ⟨h3 ⟨0, []⟩ (by decide) (by decide),
    h4 ⟨0, []⟩ [.timeout] true (by decide) (by decide) (by decide),
    h5 ⟨0, []⟩ .timeout [] true (by decide) (by decide) (by decide)
      (Or.inl rfl)⟩

/-- C1: for every input text, ticker list, configuration state and network
behaviour, `analyze_news` returns a result dictionary — it is a total
function of the model, so no failure escapes as an exception — and the
returned dictionary is always one of the four locally produced results:
the minimal fallback (missing credentials), a cached entry, an enriched
successful analysis, or the enhanced fallback covering timeout, connection
error, unexpected exception, non-200 status, rate-limit chains and
unusable responses. -/
theorem c1_analyze_news_total (loads : Str → Option Dict) (md5 : Str → Str)
    (now : Int) (text : Str) (tickers : List Str)
    (script : List HttpResult) (st : AState) (uc : Bool) :
    ((analyzeNews loads md5 now text tickers script st uc).1
      = createBasicFallback text tickers ∧ st.apiKey = [])
    ∨ (∃ e, cgetEntry (cacheKey md5 text) st.cache = some e
            ∧ (analyzeNews loads md5 now text tickers script st uc).1 = e.data)
    ∨ (∃ a, (analyzeNews loads md5 now text tickers script st uc).1
            = enrich md5 now text a)
    ∨ (analyzeNews loads md5 now text tickers script st uc).1
      = createEnhancedFallback now text tickers :=
  analyzeNews_result_cases loads md5 now text tickers script st uc

/-- C10: the cache invariant — if every stored entry carries
`is_fallback = False`, this still holds after `analyze_news` (with any
script, including 429 chains), after `_save_cache`, and after
`clear_cache`; moreover a call with `use_cache=False` (the mode every 429
retry uses) leaves the cache mapping completely unchanged, so a successful
result obtained during a retry is never cached. -/
theorem c10_cache_invariant (loads : Str → Option Dict) (md5 : Str → Str)
    (now : Int) (text : Str) (tickers : List Str)
    (script : List HttpResult) (st : AState) (uc : Bool)
    (h : fbFree st.cache) :
    fbFree ((analyzeNews loads md5 now text tickers script st uc).2.1).cache
    ∧ ((analyzeNews loads md5 now text tickers script st false).2.1).cache
      = st.cache
    ∧ fbFree (saveCache now st).cache
    ∧ (∀ dOpt, fbFree (clearCache now dOpt st).cache) :=
  ⟨fbFree_analyzeNews loads md5 now text tickers script st uc h,
   analyzeNews_cache_of_not_uc loads md5 now text tickers script st,
   fbFree_saveCache now st h,
   fun dOpt => fbFree_clearCache now dOpt st h⟩

/-- C10 witness: a concrete run — remote success stores an entry and the
invariant holds afterwards; the same run with caching disabled by the
caller leaves the cache empty. -/
theorem c10_cache_invariant_witness :
    fbFree ((analyzeNews (fun s => if s = "\x7b\x7d".data then some [] else none)
      (fun s => s) 0 "t".data [] [.timeout] ⟨"k".data, "f".data, [], 0, true⟩
      true).2.1).cache
    ∧ ((analyzeNews (fun s => if s = "\x7b\x7d".data then some [] else none)
      (fun s => s) 0 "t".data [] [.timeout] ⟨"k".data, "f".data, [], 0, true⟩
      false).2.1).cache = (⟨"k".data, "f".data, [], 0, true⟩ : AState).cache :=
  ⟨(c10_cache_invariant (fun s => if s = "\x7b\x7d".data then some [] else none)
      (fun s => s) 0 "t".data [] [.timeout] ⟨"k".data, "f".data, [], 0, true⟩
      true fbFree_nil).1,
   (c10_cache_invariant (fun s => if s = "\x7b\x7d".data then some [] else none)
      (fun s => s) 0 "t".data [] [.timeout] ⟨"k".data, "f".data, [], 0, true⟩
      true fbFree_nil).2.1⟩

theorem dget_confidence_basic (text : Str) (tickers : List Str) :
    dget "confidence" (createBasicFallback text tickers) = none := by
  simp [createBasicFallback, dget]

theorem dget_confidence_enhanced (now : Int) (text : Str) (tickers : List Str) :
    dget "confidence" (createEnhancedFallback now text tickers)
      = some (.vq (3/5)) := by
  simp [createEnhancedFallback, dget]

theorem dget_isfb_basic (text : Str) (tickers : List Str) :
    dget "is_fallback" (createBasicFallback text tickers)
      = some (.vb true) := by
  simp [createBasicFallback, dget]

theorem enhanced_ne_basic {now : Int} {text : Str} {tickers tickers' : List Str} :
    createEnhancedFallback now text tickers ≠ createBasicFallback text tickers' := by
  intro h
  have h1 := congrArg (dget "confidence") h
  rw [dget_confidence_enhanced, dget_confidence_basic] at h1
  exact Option.noConfusion h1

theorem enrich_ne_basic {md5 : Str → Str} {now : Int} {text text' : Str}
    {tickers : List Str} {a : Dict} :
    enrich md5 now text a ≠ createBasicFallback text' tickers := by
  intro h
  have h1 := congrArg (dget "is_fallback") h
  rw [dget_enrich_isfb, dget_isfb_basic] at h1
  simp at h1

theorem dget_risk_level_enhanced (now : Int) (text : Str) (tickers : List Str) :
    dget "risk_level" (createEnhancedFallback now text tickers)
    = some (.vs (if 2 ≤ riskCount text then "высокий".data
                 else if riskCount text = 1 then "средний".data
                 else "низкий".data)) := by
  simp [createEnhancedFallback, dget]

/-- C8: the enhanced fallback's `risk_level` is determined by how many of
the five fixed risk words occur in the lowered input text — at least two
give high, exactly one gives medium, zero gives low — and in particular any
text containing two distinct words of the risk list yields high. -/
theorem c8_risk_level (now : Int) (text : Str) (tickers : List Str) :
    (2 ≤ riskCount text →
      dget "risk_level" (createEnhancedFallback now text tickers)
        = some (.vs "высокий".data))
    ∧ (riskCount text = 1 →
      dget "risk_level" (createEnhancedFallback now text tickers)
        = some (.vs "средний".data))
    ∧ (riskCount text = 0 →
      dget "risk_level" (createEnhancedFallback now text tickers)
        = some (.vs "низкий".data))
    ∧ (∀ w1 w2, w1 ∈ riskWords → w2 ∈ riskWords → w1 ≠ w2 →
      isSub w1 (lowerStr text) = true → isSub w2 (lowerStr text) = true →
      dget "risk_level" (createEnhancedFallback now text tickers)
        = some (.vs "высокий".data)) := by
  have hkey := dget_risk_level_enhanced now text tickers
  refine ⟨?_, ?_, ?_, ?_⟩
  · intro h2
    rw [hkey, if_pos h2]
  · intro h1
    rw [hkey, if_neg (by omega), if_pos h1]
  · intro h0
    rw [hkey, if_neg (by omega), if_neg (by omega)]
  · intro w1 w2 hm1 hm2 hne hs1 hs2
    have h2 : 2 ≤ riskCount text :=
      two_le_countP (fun w => isSub w (lowerStr text)) riskWords w1 w2
        hm1 hm2 hne hs1 hs2
    rw [hkey, if_pos h2]

/-- C8 witness: a text with the two distinct risk words `война` and
`санкции` gets `risk_level = "высокий"`. -/
theorem c8_risk_level_witness :
    dget "risk_level" (createEnhancedFallback 0 "Война и санкции".data [])
      = some (.vs "высокий".data) :=
  (c8_risk_level 0 "Война и санкции".data []).2.2.2 "война".data "санкции".data
    (by decide) (by decide) (by decide) (by decide) (by decide)

/-- C5 (amended): `analyze_news` returns the minimal fallback for every
request exactly when the API key is missing; the folder identifier is not
checked. With the API key present the result is a cached entry, an
enriched success or the enhanced fallback, and (unless a cached entry
happens to equal the minimal-fallback dictionary) never the minimal
fallback. -/
theorem c5_minimal_fallback_iff_no_api_key (loads : Str → Option Dict)
    (md5 : Str → Str) (now : Int) (text : Str) (tickers : List Str)
    (script : List HttpResult) (st : AState) (uc : Bool) :
    (st.apiKey = [] →
      (analyzeNews loads md5 now text tickers script st uc).1
        = createBasicFallback text tickers)
    ∧ (¬ st.apiKey = [] →
      (∀ e, cgetEntry (cacheKey md5 text) st.cache = some e →
        e.data ≠ createBasicFallback text tickers) →
      (analyzeNews loads md5 now text tickers script st uc).1
        ≠ createBasicFallback text tickers) := by
  constructor
  · intro hA
    cases script with
    | nil =>
      simp only [analyzeNews]
      rw [if_pos hA]
    | cons r rest =>
      cases r with
      | resp status aiText =>
        simp only [analyzeNews]
        rw [if_pos hA]
      | timeout =>
        simp only [analyzeNews]
        rw [if_pos hA]
      | connError =>
        simp only [analyzeNews]
        rw [if_pos hA]
      | exc =>
        simp only [analyzeNews]
        rw [if_pos hA]
  · intro hA hcache
    rcases analyzeNews_result_cases loads md5 now text tickers script st uc with
      ⟨_, hk⟩ | ⟨e, he, hd⟩ | ⟨a, ha⟩ | h
    · exact absurd hk hA
    · rw [hd]
      exact hcache e he
    · rw [ha]
      exact enrich_ne_basic
    · rw [h]
      exact enhanced_ne_basic

/-- C5 counterexample state: API key present, folder identifier missing. -/
def stC5 : AState := ⟨"k".data, [], [], 0, true⟩

/-- C5 counterexample: with the API key configured but the folder
identifier absent, a request does not return the minimal fallback (it
returns the enhanced fallback on a timeout) — so a missing folder
identifier does not force the minimal fallback, contrary to the claim. -/
theorem c5_counterexample :
    stC5.folderId = []
    ∧ (analyzeNews (fun _ => none) (fun s => s) 0 "t".data [] [.timeout]
        stC5 true).1 ≠ createBasicFallback "t".data [] := by
  refine ⟨rfl, ?_⟩
  have h : (analyzeNews (fun _ => none) (fun s => s) 0 "t".data [] [.timeout]
      stC5 true).1 = createEnhancedFallback 0 "t".data [] := by rfl
  rw [h]
  exact enhanced_ne_basic

/-- C5 witness: both directions at concrete states — a missing API key
forces the minimal fallback, and a present API key with an empty cache
never yields it. -/
theorem c5_minimal_fallback_iff_no_api_key_witness :
    (analyzeNews (fun _ => none) (fun s => s) 0 "t".data [] [.timeout]
      ⟨[], "f".data, [], 0, true⟩ true).1 = createBasicFallback "t".data []
    ∧ (analyzeNews (fun _ => none) (fun s => s) 0 "t".data [] [.timeout]
      ⟨"k".data, "f".data, [], 0, true⟩ true).1
        ≠ createBasicFallback "t".data [] :=
  ⟨(c5_minimal_fallback_iff_no_api_key (fun _ => none) (fun s => s) 0 "t".data
      [] [.timeout] ⟨[], "f".data, [], 0, true⟩ true).1 rfl,
   (c5_minimal_fallback_iff_no_api_key (fun _ => none) (fun s => s) 0 "t".data
      [] [.timeout] ⟨"k".data, "f".data, [], 0, true⟩ true).2 (by decide)
      (fun e he => by simp [cgetEntry] at he)⟩

/-- C2 counterexample: the basic (minimal) fallback of the source omits the
`sentiment_score`, `confidence` and `analyzed_at` fields entirely (already
on the empty input), so it is not a fully populated result record as the
claim states. -/
theorem c2_counterexample :
    dget "confidence" (createBasicFallback [] []) = none
    ∧ dget "sentiment_score" (createBasicFallback [] []) = none
    ∧ dget "analyzed_at" (createBasicFallback [] []) = none := by
  refine ⟨by decide, by decide, by decide⟩

/-- C2 (amended): both fallback constructors are total functions of the
model and always set `is_fallback = true`; the enhanced fallback is fully
populated — `sentiment_score`, `confidence` (0.6) and `analyzed_at`
included — while the basic fallback populates only `summary`, `sentiment`,
`risk_level`, `affected_assets`, `market_impact` and `short_term_action`,
omitting `sentiment_score`, `confidence` and `analyzed_at`. -/
theorem c2_fallback_totality_amended (now : Int) (text : Str)
    (tickers : List Str) :
    dget "is_fallback" (createBasicFallback text tickers) = some (.vb true)
    ∧ dget "is_fallback" (createEnhancedFallback now text tickers)
        = some (.vb true)
    ∧ (dget "summary" (createBasicFallback text tickers)).isSome = true
    ∧ (dget "sentiment" (createBasicFallback text tickers)).isSome = true
    ∧ (dget "risk_level" (createBasicFallback text tickers)).isSome = true
    ∧ (dget "affected_assets" (createBasicFallback text tickers)).isSome = true
    ∧ (dget "market_impact" (createBasicFallback text tickers)).isSome = true
    ∧ (dget "short_term_action" (createBasicFallback text tickers)).isSome = true
    ∧ dget "confidence" (createBasicFallback text tickers) = none
    ∧ dget "sentiment_score" (createBasicFallback text tickers) = none
    ∧ dget "analyzed_at" (createBasicFallback text tickers) = none
    ∧ (dget "summary" (createEnhancedFallback now text tickers)).isSome = true
    ∧ (dget "sentiment" (createEnhancedFallback now text tickers)).isSome = true
    ∧ (dget "sentiment_score"
        (createEnhancedFallback now text tickers)).isSome = true
    ∧ (dget "risk_level" (createEnhancedFallback now text tickers)).isSome = true
    ∧ (dget "affected_assets"
        (createEnhancedFallback now text tickers)).isSome = true
    ∧ (dget "market_impact"
        (createEnhancedFallback now text tickers)).isSome = true
    ∧ (dget "recommended_actions"
        (createEnhancedFallback now text tickers)).isSome = true
    ∧ dget "confidence" (createEnhancedFallback now text tickers)
        = some (.vq (3/5))
    ∧ dget "analyzed_at" (createEnhancedFallback now text tickers)
        = some (.vtime now) := by
  simp [createBasicFallback, createEnhancedFallback, dget]

/-- Model of `json.loads` restricted to the concrete strings the C3/C4
counterexamples feed it: the object text `{"summary": 1}` parses to the
corresponding one-field dictionary (as real `json.loads` does); any other
string — such as the unparsable fenced content `bad` — fails, modelling the
`json.JSONDecodeError` the real parser raises there. -/
def loadsDemo : Str → Option Dict :=
  fun s => if s = "\x7b\"summary\": 1\x7d".data
           then some [("summary", .vq 1)] else none

/-- The C3 counterexample response body: a fenced block declared as json
whose content does not parse, followed by a bare top-level JSON object that
would parse. -/
def txtC3 : Str := "```json\nbad\n```\n\x7b\"summary\": 1\x7d".data

/-- C3 counterexample: the fenced-as-json candidate matches with content
`bad`, its parse fails, and extraction returns nothing — even though the
balanced-brace candidate matches and parses. A matching candidate that
fails to parse does prevent later candidates from being tried, contrary to
the claim. -/
theorem c3_counterexample :
    extractJson loadsDemo txtC3 = none
    ∧ fenced "```json\n".data "\n```".data txtC3 = some ("bad".data)
    ∧ loadsDemo ("bad".data) = none
    ∧ braceSpan txtC3 = some ("\x7b\"summary\": 1\x7d".data)
    ∧ loadsDemo ("\x7b\"summary\": 1\x7d".data)
        = some [("summary", .vq 1)] := by
  refine ⟨by decide, by decide, by decide, by decide, by decide⟩

/-- C3 (amended): extraction tries the candidates in order — fenced block
declared as json, generic fenced block, first-to-last balanced-brace span
(which also subsumes the manual find/rfind step) — and the first candidate
that MATCHES determines the outcome: the extraction returns that
candidate's parse, which is nothing when the parse fails, and later
candidates are never consulted; only when no candidate matches, or the
first matching candidate fails to parse, or (checked by the caller) the
parsed object lacks `summary`, is the response treated as unusable. -/
theorem c3_extraction_first_match_wins (loads : Str → Option Dict) (t : Str) :
    extractJson loads t = (firstCandidate t).bind loads := by
  unfold extractJson firstCandidate
  cases fenced "```json\n".data "\n```".data t with
  | some s => rfl
  | none =>
    cases fenced "```\n".data "\n```".data t with
    | some s => rfl
    | none =>
      cases braceSpan t with
      | some s => rfl
      | none => rfl

/-- C4 counterexample state: credentials configured, empty cache. -/
def stC4 : AState := ⟨"k".data, "f".data, [], 0, true⟩

/-- The C4 counterexample script: three 429 responses, then a 200 whose
body parses and contains `summary`. -/
def scriptC4 : List HttpResult :=
  [.resp 429 none, .resp 429 none, .resp 429 none,
   .resp 200 (some ("\x7b\"summary\": 1\x7d".data))]

/-- C4 counterexample: after three consecutive 429 responses the call is
still retried — four network calls occur in total, i.e. three retries of
the whole call, exceeding the claimed budget of 2 — and the fourth attempt
succeeds (the result carries `is_fallback = False`) instead of the claimed
failure-classified fallback after two retries. -/
theorem c4_counterexample :
    ((analyzeNews loadsDemo (fun s => s) 0 "t".data [] scriptC4 stC4
        true).2.2).countP (fun e => decide (e = Event.call)) = 4
    ∧ dget "is_fallback" (analyzeNews loadsDemo (fun s => s) 0 "t".data []
        scriptC4 stC4 true).1 = some (.vb false) := by
  refine ⟨by decide, by decide⟩

/-- C4 (amended): on each HTTP 429 response the invoker sleeps 2 units and
then 1 more unit (so at least the base delay) before re-issuing the whole
call with caching disabled; a further 429 restarts this recursively with
the same waits, so after a run of k consecutive 429 responses the call has
been issued k + 1 times — the number of retries grows with the run instead
of stopping at 2 — and when the run ends in a non-429 failure the caller
receives the enhanced fallback, never an exception. (The retry helper's
second loop attempt, with its doubled 2-unit wait, is unreachable because
the retried call never raises.) -/
theorem c4_backoff_retries_unbounded (loads : Str → Option Dict)
    (md5 : Str → Str) (now : Int) (text : Str) (tickers : List Str)
    (k : Nat) (st : AState) (uc : Bool) (hA : ¬ st.apiKey = [])
    (hKey : cgetEntry (cacheKey md5 text) st.cache = none) :
    (analyzeNews loads md5 now text tickers
        (List.replicate k (.resp 429 none) ++ [.timeout]) st uc).1
      = createEnhancedFallback now text tickers
    ∧ ((analyzeNews loads md5 now text tickers
        (List.replicate k (.resp 429 none) ++ [.timeout]) st uc).2.2).countP
        (fun e => decide (e = Event.call)) = k + 1
    ∧ ((analyzeNews loads md5 now text tickers
        (List.replicate k (.resp 429 none) ++ [.timeout]) st uc).2.2).countP
        (fun e => decide (e = Event.wait429)) = k
    ∧ ((analyzeNews loads md5 now text tickers
        (List.replicate k (.resp 429 none) ++ [.timeout]) st uc).2.2).countP
        (fun e => decide (e = Event.retryWait 1)) = k :=
  analyzeNews_429_run loads md5 now text tickers k st uc hA hKey

/-- C4 witness: two consecutive 429 responses produce three calls, two
2-unit backoff waits and two 1-unit retry waits, ending in the enhanced
fallback. -/
theorem c4_backoff_retries_unbounded_witness :
    (analyzeNews (fun _ => none) (fun s => s) 0 "t".data []
        (List.replicate 2 (.resp 429 none) ++ [.timeout]) stC4 true).1
      = createEnhancedFallback 0 "t".data []
    ∧ ((analyzeNews (fun _ => none) (fun s => s) 0 "t".data []
        (List.replicate 2 (.resp 429 none) ++ [.timeout]) stC4 true).2.2).countP
        (fun e => decide (e = Event.wait429)) = 2 :=
  ⟨(c4_backoff_retries_unbounded (fun _ => none) (fun s => s) 0 "t".data [] 2
      stC4 true (by decide) (by decide)).1,
   (c4_backoff_retries_unbounded (fun _ => none) (fun s => s) 0 "t".data [] 2
      stC4 true (by decide) (by decide)).2.2.1⟩

/-- C7 witness: on a state with one fresh entry, a flush leaves only
entries within the retention window, and `clear_cache(None)` empties the
cache. -/
theorem c7_retention_amended_witness :
    (∀ k e, (k, e) ∈ (saveCache 700000 stC7).cache → 700000 - e.ts ≤ week)
    ∧ (clearCache 700000 none stC7).cache = [] :=
  ⟨(c7_retention_amended 700000 stC7).1 rfl,
   (c7_retention_amended 700000 stC7).2.2.2⟩
